import Mathlib

/-!
Formal model of the PySpark ETL pipeline in `etl.py` (class `SparkETL`).

Modelling choices for the shallow embedding:

* A Spark `DataFrame` is a `List` of record structures; a nullable column of
  type `T` is an `Option T` field (`none` = SQL null).
* The two raw schemas (`schema_song_data`, `schema_log_data`) become the
  structures `SongRecord` and `LogRecord`, with every field nullable, as in
  the source (`StructField _ _ True`).
* `DoubleType` columns (`duration`, latitudes, `registration`, `length`) are
  never computed with by the pipeline — they are only projected and compared
  for row equality — so their carrier is modelled as `Int`.
* The Python UDF `parse_timestamp` computes
  `datetime.fromtimestamp(ts / 1000).replace(microsecond=0)`: the resulting
  instant is modelled as whole epoch seconds, i.e. `Int.fdiv ts 1000`
  (floor division matches `fromtimestamp` + microsecond truncation on both
  signs).  Applied to a null `ts`, the Python expression `ts / 1000` raises,
  so the UDF is modelled in `Except Unit`.
* Row-wise application of that fallible UDF (`withColumn ... parse_timestamp`)
  is `mapME`: it fails as soon as any row fails, otherwise returns all rows.
* Spark's `year/month/dayofmonth/hour/weekofyear` builtins are modelled by
  explicit proleptic-Gregorian calendar arithmetic on epoch seconds
  (`civilFromDays` is the standard days-to-civil algorithm; `weekOfYearOf`
  is the ISO-8601 week number, which is what `weekofyear` computes).
* `dropDuplicates([key])` / `distinct()` keep the first occurrence per key in
  input order; `orderBy` is an insertion sort with Spark's default null
  ordering (ascending: nulls first; descending: nulls last).
* Each `DataFrameWriter.parquet` call is recorded as a `WriteCall` value
  holding the path suffix and the `partitionBy` columns that the source
  actually passes.
-/

namespace SparkETL

/-- Raw song (catalog) record: the fields of `schema_song_data`, all nullable. -/
structure SongRecord where
  artist_id : Option String
  artist_latitude : Option Int
  artist_location : Option String
  artist_longitude : Option Int
  artist_name : Option String
  duration : Option Int
  num_songs : Option Int
  song_id : Option String
  title : Option String
  year : Option Int
deriving DecidableEq

/-- Raw log (activity) record: the fields of `schema_log_data`, all nullable. -/
structure LogRecord where
  artist : Option String
  auth : Option String
  firstName : Option String
  gender : Option String
  itemInSession : Option Int
  lastName : Option String
  length : Option Int
  level : Option String
  location : Option String
  method : Option String
  page : Option String
  registration : Option Int
  sessionId : Option Int
  song : Option String
  status : Option Int
  ts : Option Int
  userAgent : Option String
  userId : Option String
deriving DecidableEq

/-- Decidable equality for `Except`, so concrete pipeline runs can be checked
with `decide`. -/
instance instDecEqExcept {ε α : Type} [DecidableEq ε] [DecidableEq α] :
    DecidableEq (Except ε α)
  | Except.ok a, Except.ok b =>
    if h : a = b then Decidable.isTrue (by rw [h])
    else Decidable.isFalse (by intro hh; cases hh; exact h rfl)
  | Except.ok _, Except.error _ => Decidable.isFalse (by intro hh; cases hh)
  | Except.error _, Except.ok _ => Decidable.isFalse (by intro hh; cases hh)
  | Except.error e, Except.error f =>
    if h : e = f then Decidable.isTrue (by rw [h])
    else Decidable.isFalse (by intro hh; cases hh; exact h rfl)

/-- The UDF `parse_timestamp`: on a non-null epoch-millisecond value it returns
the instant truncated to whole seconds (`fromtimestamp(ts / 1000)` with
`microsecond=0`, i.e. floor division by 1000); on a null value the Python
division `ts / 1000` raises. -/
def parse_timestamp : Option Int → Except Unit Int
  | none => Except.error ()
  | some ts => Except.ok (Int.fdiv ts 1000)

/-- Days since 1970-01-01 to proleptic-Gregorian (year, month, day)
(standard civil-from-days algorithm). -/
def civilFromDays (z : Int) : Int × Int × Int :=
  let z' := z + 719468
  let era : Int := z'.fdiv 146097
  let doe : Int := z' - era * 146097
  let yoe : Int := (doe - doe.ediv 1460 + doe.ediv 36524 - doe.ediv 146096).ediv 365
  let y : Int := yoe + era * 400
  let doy : Int := doe - (365 * yoe + yoe.ediv 4 - yoe.ediv 100)
  let mp : Int := (5 * doy + 2).ediv 153
  let d : Int := doy - (153 * mp + 2).ediv 5 + 1
  let m : Int := if mp < 10 then mp + 3 else mp - 9
  (if m ≤ 2 then y + 1 else y, m, d)

/-- Proleptic-Gregorian (year, month, day) to days since 1970-01-01. -/
def daysFromCivil (y m d : Int) : Int :=
  let y' := if m ≤ 2 then y - 1 else y
  let era : Int := y'.fdiv 400
  let yoe : Int := y' - era * 400
  let mp : Int := if 2 < m then m - 3 else m + 9
  let doy : Int := (153 * mp + 2).ediv 5 + d - 1
  let doe : Int := yoe * 365 + yoe.ediv 4 - yoe.ediv 100 + doy
  era * 146097 + doe - 719468

/-- Calendar year of an epoch-second instant (Spark's `year`). -/
def yearOf (secs : Int) : Int := (civilFromDays (secs.fdiv 86400)).1

/-- Calendar month of an epoch-second instant (Spark's `month`). -/
def monthOf (secs : Int) : Int := (civilFromDays (secs.fdiv 86400)).2.1

/-- Day of month of an epoch-second instant (Spark's `dayofmonth`). -/
def dayOf (secs : Int) : Int := (civilFromDays (secs.fdiv 86400)).2.2

/-- Hour of day (0–23) of an epoch-second instant (Spark's `hour`). -/
def hourOf (secs : Int) : Int := (secs.fdiv 3600).emod 24

/-- ISO weekday (Monday = 1 … Sunday = 7) of a day count since the epoch;
1970-01-01 was a Thursday. -/
def isoWeekdayOf (z : Int) : Int := (z + 3).emod 7 + 1

/-- Number of ISO-8601 weeks (52 or 53) in a given year. -/
def isoWeeksInYear (y : Int) : Int :=
  if (y + y.fdiv 4 - y.fdiv 100 + y.fdiv 400).emod 7 = 4 ∨
     (y - 1 + (y - 1).fdiv 4 - (y - 1).fdiv 100 + (y - 1).fdiv 400).emod 7 = 3
  then 53 else 52

/-- ISO-8601 week-of-year of an epoch-second instant (Spark's `weekofyear`). -/
def weekOfYearOf (secs : Int) : Int :=
  let z := secs.fdiv 86400
  let y := (civilFromDays z).1
  let ordinal := z - daysFromCivil y 1 1 + 1
  let w := (ordinal - isoWeekdayOf z + 10).fdiv 7
  if w < 1 then isoWeeksInYear (y - 1)
  else if isoWeeksInYear y < w then 1
  else w

/-- Row-wise application of a fallible function over the rows of a dataset:
fails as soon as one row fails (a raising UDF aborts the job), otherwise
returns the transformed rows in order. -/
def mapME {α β : Type} (f : α → Except Unit β) : List α → Except Unit (List β)
  | [] => Except.ok []
  | a :: as =>
    match f a with
    | Except.error e => Except.error e
    | Except.ok b =>
      match mapME f as with
      | Except.error e => Except.error e
      | Except.ok bs => Except.ok (b :: bs)

/-- Spark's `dropDuplicates` on a key (and `distinct` with `key = id`): keep
the first row whose key has not been seen yet. -/
def dropDuplicatesBy {α β : Type} [DecidableEq β] (key : α → β) :
    List α → List β → List α
  | [], _ => []
  | x :: xs, seen =>
    if key x ∈ seen then dropDuplicatesBy key xs seen
    else x :: dropDuplicatesBy key xs (key x :: seen)

/-- Insert into a list sorted by `le` (helper for `sortLE`). -/
def insertLE {α : Type} (le : α → α → Bool) (x : α) : List α → List α
  | [] => [x]
  | y :: ys => if le x y then x :: y :: ys else y :: insertLE le x ys

/-- Total sort by a boolean comparison (the model of `orderBy`). -/
def sortLE {α : Type} (le : α → α → Bool) : List α → List α
  | [] => []
  | x :: xs => insertLE le x (sortLE le xs)

/-- A call to `DataFrameWriter.parquet`: destination path suffix and the
`partitionBy` columns actually passed. -/
structure WriteCall where
  path : String
  partitionBy : List String
deriving DecidableEq

/-- Row of the songs table: `select("song_id", "title", "artist_id", "year",
"duration")`. -/
structure SongRow where
  song_id : Option String
  title : Option String
  artist_id : Option String
  year : Option Int
  duration : Option Int
deriving DecidableEq

/-- Projection of a catalog record onto the songs-table columns. -/
def songProj (r : SongRecord) : SongRow :=
  { song_id := r.song_id, title := r.title, artist_id := r.artist_id,
    year := r.year, duration := r.duration }

/-- The songs table: project, then `dropDuplicates(["song_id"])`. -/
def songs_table (df : List SongRecord) : List SongRow :=
  dropDuplicatesBy (fun r => r.song_id) (df.map songProj) []

/-- The write call for the songs table (partitioned by year and artist_id). -/
def songsWrite : WriteCall :=
  { path := "songs_table.parquet", partitionBy := ["year", "artist_id"] }

/-- Row of the artists table: `artist_id`, plus renamed name/location/
latitude/longitude columns. -/
structure ArtistRow where
  artist_id : Option String
  name : Option String
  location : Option String
  latitude : Option Int
  longitude : Option Int
deriving DecidableEq

/-- Projection of a catalog record onto the artists-table columns. -/
def artistProj (r : SongRecord) : ArtistRow :=
  { artist_id := r.artist_id, name := r.artist_name,
    location := r.artist_location, latitude := r.artist_latitude,
    longitude := r.artist_longitude }

/-- The artists table: project, then `distinct()` (full-row deduplication). -/
def artists_table (df : List SongRecord) : List ArtistRow :=
  dropDuplicatesBy (fun r => r) (df.map artistProj) []

/-- The write call for the artists table (no partitioning). -/
def artistsWrite : WriteCall :=
  { path := "artists_table.parquet", partitionBy := [] }

/-- Row of the users table: renamed user columns plus the raw `ts`. -/
structure UserRow where
  user_id : Option String
  first_name : Option String
  last_name : Option String
  gender : Option String
  level : Option String
  ts : Option Int
deriving DecidableEq

/-- Projection of a log record onto the users-table columns. -/
def userProj (l : LogRecord) : UserRow :=
  { user_id := l.userId, first_name := l.firstName, last_name := l.lastName,
    gender := l.gender, level := l.level, ts := l.ts }

/-- Lexicographic strict order on lists of naturals (helper for the string
ordering). -/
def natListLt : List Nat → List Nat → Bool
  | _, [] => false
  | [], _ :: _ => true
  | a :: as, b :: bs =>
    if a < b then true else if b < a then false else natListLt as bs

/-- Code points of a string, the sort key Spark uses for strings (UTF-8 byte
order coincides with code-point order). -/
def strKey (x : String) : List Nat := x.data.map Char.toNat

/-- Spark's strict ordering on strings: lexicographic on code points. -/
def strLtB (x y : String) : Bool := natListLt (strKey x) (strKey y)

/-- Descending comparison on a nullable integer column with Spark's default
null placement for `desc()` (nulls last). -/
def optIntDescLE (a b : Option Int) : Bool :=
  match a, b with
  | some x, some y => y ≤ x
  | some _, none => true
  | none, some _ => false
  | none, none => true

/-- The `orderBy(col("user_id"), col("ts").desc())` comparison: `user_id`
ascending (nulls first), ties broken by `ts` descending (nulls last). -/
def userKeyLE (a b : UserRow) : Bool :=
  match a.user_id, b.user_id with
  | none, none => optIntDescLE a.ts b.ts
  | none, some _ => true
  | some _, none => false
  | some x, some y =>
    if strLtB x y then true
    else if strLtB y x then false
    else optIntDescLE a.ts b.ts

/-- The users table: project/rename, then `orderBy(user_id, ts.desc())`. -/
def users_table (df : List LogRecord) : List UserRow :=
  sortLE userKeyLE (df.map userProj)

/-- The write call for the users table (no partitioning). -/
def usersWrite : WriteCall :=
  { path := "users_table.parquet", partitionBy := [] }

/-- Row of the time table: `start_time` plus its calendar decomposition. -/
structure TimeRow where
  start_time : Int
  week : Int
  hour : Int
  day : Int
  month : Int
  year : Int
deriving DecidableEq

/-- One time-table row from a parsed `start_time` instant: the five
`withColumn` calls deriving week, hour, day, month, year from `start_time`. -/
def mkTimeRow (t : Int) : TimeRow :=
  { start_time := t, week := weekOfYearOf t, hour := hourOf t,
    day := dayOf t, month := monthOf t, year := yearOf t }

/-- The time table: `withColumn("start_time", parse_timestamp(ts))` on every
row (failing if the UDF raises), then derive the calendar columns. -/
def time_table (df : List LogRecord) : Except Unit (List TimeRow) :=
  mapME (fun l => (parse_timestamp l.ts).map mkTimeRow) df

/-- The write call for the time table (no partitioning is passed, despite the
source comment about year/month). -/
def timeWrite : WriteCall :=
  { path := "time_table.parquet", partitionBy := [] }

/-- The join condition `df_song_data.artist_name == df_log_data.artist`:
SQL equality is null-rejecting, so a null on either side never matches. -/
def joinPredB (s : SongRecord) (l : LogRecord) : Bool :=
  match s.artist_name, l.artist with
  | some a, some b => a == b
  | _, _ => false

/-- The inner join of the catalog and activity datasets on artist name:
one pair per matching (catalog row, activity row) combination. -/
def joinRows (songs : List SongRecord) (logs : List LogRecord) :
    List (SongRecord × LogRecord) :=
  songs.flatMap (fun s => (logs.filter (joinPredB s)).map (fun l => (s, l)))

/-- Row of the songplays table: the seven projected columns (`start_time` is
not among them). -/
structure SongplayRow where
  user_id : Option String
  level : Option String
  song_id : Option String
  artist_id : Option String
  sessionId : Option Int
  location : Option String
  userAgent : Option String
deriving DecidableEq

/-- Projection of a joined (catalog, activity) pair onto the songplays
columns: `userId`, `level`, `song_id`, `artist_id`, `sessionId`, `location`,
`userAgent` (`location` resolves to the log side; the song side only has
`artist_location`). -/
def songplayProj (s : SongRecord) (l : LogRecord) : SongplayRow :=
  { user_id := l.userId, level := l.level, song_id := s.song_id,
    artist_id := s.artist_id, sessionId := l.sessionId,
    location := l.location, userAgent := l.userAgent }

/-- The `where(df_log_data.page == 'NextSong')` predicate (resolved against
the log side of the join). -/
def pageIsNextSong (l : LogRecord) : Bool := l.page == some "NextSong"

/-- The songplays table, following the source order exactly: inner join on
artist name, then `withColumn("start_time", parse_timestamp(ts))` over every
joined row (failing if the UDF raises), then project the seven columns
(dropping `start_time`), then filter to `page == 'NextSong'`. -/
def create_songplays_table (songs : List SongRecord) (logs : List LogRecord) :
    Except Unit (List SongplayRow) :=
  match mapME (fun p => (parse_timestamp p.2.ts).map (fun t => (p, t)))
      (joinRows songs logs) with
  | Except.error e => Except.error e
  | Except.ok withTime =>
    Except.ok (((withTime.filter (fun q => pageIsNextSong q.1.2)).map
      (fun q => songplayProj q.1.1 q.1.2)))

/-- The write call for the songplays table: no `partitionBy` argument is
passed in the source. -/
def songplaysWrite : WriteCall :=
  { path := "songplays.parquet", partitionBy := [] }

/-- Default row used with `List.getD` when stating adjacency properties. -/
def noUserRow : UserRow :=
  { user_id := none, first_name := none, last_name := none,
    gender := none, level := none, ts := none }

/-- Concrete catalog record: song S1 by artist "X". -/
def cs1 : SongRecord :=
  { artist_id := some "A1", artist_latitude := none, artist_location := none,
    artist_longitude := none, artist_name := some "X", duration := some 200,
    num_songs := some 1, song_id := some "S1", title := some "T1",
    year := some 2000 }

/-- Concrete catalog record: a second song S2 by the same artist "X". -/
def cs2 : SongRecord :=
  { artist_id := some "A1", artist_latitude := none, artist_location := none,
    artist_longitude := none, artist_name := some "X", duration := some 300,
    num_songs := some 1, song_id := some "S2", title := some "T2",
    year := some 2001 }

/-- Concrete catalog record: same artist_id as `cs1` but a different artist
name, so its artists-table row differs from the one of `cs1`. -/
def cs3 : SongRecord :=
  { artist_id := some "A1", artist_latitude := none, artist_location := none,
    artist_longitude := none, artist_name := some "Y", duration := some 100,
    num_songs := some 1, song_id := some "S3", title := some "T3",
    year := some 2002 }

/-- Concrete activity record: a NextSong play of artist "X" by user U1. -/
def cl1 : LogRecord :=
  { artist := some "X", auth := some "Logged In", firstName := some "F",
    gender := some "M", itemInSession := some 0, lastName := some "L",
    length := some 200, level := some "free", location := some "Loc",
    method := some "PUT", page := some "NextSong", registration := some 1,
    sessionId := some 1, song := some "T1", status := some 200,
    ts := some 0, userAgent := some "UA", userId := some "U1" }

/-- Concrete activity record: a non-playback action by the same user U1 with
a later timestamp and a null artist. -/
def cl2 : LogRecord :=
  { artist := none, auth := some "Logged In", firstName := some "F",
    gender := some "M", itemInSession := some 1, lastName := some "L",
    length := none, level := some "free", location := some "Loc",
    method := some "GET", page := some "Home", registration := some 1,
    sessionId := some 1, song := none, status := some 200,
    ts := some 5000, userAgent := some "UA", userId := some "U1" }

/-- Concrete activity record with a null `ts` and a null artist (it joins
with no catalog record). -/
def clNullTs : LogRecord :=
  { artist := none, auth := some "Logged In", firstName := some "F",
    gender := some "M", itemInSession := some 2, lastName := some "L",
    length := none, level := some "free", location := some "Loc",
    method := some "GET", page := some "Home", registration := some 1,
    sessionId := some 1, song := none, status := some 200,
    ts := none, userAgent := some "UA", userId := some "U1" }

/-- Concrete activity record with a null `ts` whose artist "X" does join with
the catalog. -/
def clNullTsJoin : LogRecord :=
  { artist := some "X", auth := some "Logged In", firstName := some "F",
    gender := some "M", itemInSession := some 3, lastName := some "L",
    length := some 200, level := some "free", location := some "Loc",
    method := some "PUT", page := some "NextSong", registration := some 1,
    sessionId := some 1, song := some "T1", status := some 200,
    ts := none, userAgent := some "UA", userId := some "U1" }

/-- Concrete activity record: page NextSong but a null artist. -/
def clNullArtist : LogRecord :=
  { artist := none, auth := some "Logged In", firstName := some "F",
    gender := some "M", itemInSession := some 4, lastName := some "L",
    length := some 200, level := some "free", location := some "Loc",
    method := some "PUT", page := some "NextSong", registration := some 1,
    sessionId := some 1, song := some "T1", status := some 200,
    ts := some 1000, userAgent := some "UA", userId := some "U1" }

/-! Shared lemmas about the combinators of the embedding. -/

theorem mapME_ok_length {α β : Type} {f : α → Except Unit β} :
    ∀ {l : List α} {out : List β}, mapME f l = Except.ok out →
      out.length = l.length := by
  intro l
  induction l with
  | nil => intro out h; cases h; rfl
  | cons a as ih =>
    intro out h
    simp only [mapME] at h
    cases hfa : f a with
    | error e => rw [hfa] at h; cases h
    | ok b =>
      rw [hfa] at h
      cases hrec : mapME f as with
      | error e => rw [hrec] at h; cases h
      | ok bs =>
        rw [hrec] at h
        cases h
        simp [ih hrec]

theorem mapME_ok_mem {α β : Type} {f : α → Except Unit β} :
    ∀ {l : List α} {out : List β}, mapME f l = Except.ok out →
      ∀ b ∈ out, ∃ a ∈ l, f a = Except.ok b := by
  intro l
  induction l with
  | nil => intro out h; cases h; intro b hb; cases hb
  | cons a as ih =>
    intro out h
    simp only [mapME] at h
    cases hfa : f a with
    | error e => rw [hfa] at h; cases h
    | ok b =>
      rw [hfa] at h
      cases hrec : mapME f as with
      | error e => rw [hrec] at h; cases h
      | ok bs =>
        rw [hrec] at h
        cases h
        intro c hc
        rcases List.mem_cons.mp hc with hc | hc
        · exact ⟨a, List.mem_cons_self _ _, hc ▸ hfa⟩
        · rcases ih hrec c hc with ⟨a', ha', hfa'⟩
          exact ⟨a', List.mem_cons_of_mem _ ha', hfa'⟩

theorem mapME_ok_of_forall {α β : Type} {f : α → Except Unit β} {g : α → β} :
    ∀ {l : List α}, (∀ a ∈ l, f a = Except.ok (g a)) →
      mapME f l = Except.ok (l.map g) := by
  intro l
  induction l with
  | nil => intro _; rfl
  | cons a as ih =>
    intro h
    simp only [mapME, h a (List.mem_cons_self _ _),
      ih (fun a' ha' => h a' (List.mem_cons_of_mem _ ha')), List.map_cons]

theorem mapME_ok_forall {α β : Type} {f : α → Except Unit β} :
    ∀ {l : List α} {out : List β}, mapME f l = Except.ok out →
      ∀ a ∈ l, ∃ b, f a = Except.ok b := by
  intro l
  induction l with
  | nil => intro out _ a ha; cases ha
  | cons a as ih =>
    intro out h
    simp only [mapME] at h
    cases hfa : f a with
    | error e => rw [hfa] at h; cases h
    | ok b =>
      rw [hfa] at h
      cases hrec : mapME f as with
      | error e => rw [hrec] at h; cases h
      | ok bs =>
        intro a' ha'
        rcases List.mem_cons.mp ha' with ha' | ha'
        · exact ⟨b, ha' ▸ hfa⟩
        · exact ih hrec a' ha'

theorem mapME_error_of_mem {α β : Type} {f : α → Except Unit β} :
    ∀ {l : List α} {a : α}, a ∈ l → f a = Except.error () →
      mapME f l = Except.error () := by
  intro l
  induction l with
  | nil => intro a ha; cases ha
  | cons x xs ih =>
    intro a ha hfa
    simp only [mapME]
    rcases List.mem_cons.mp ha with ha | ha
    · subst ha
      rw [hfa]
    · cases hfx : f x with
      | error e => cases e; rfl
      | ok b => rw [ih ha hfa]

theorem mem_of_mem_dropDuplicatesBy {α β : Type} [DecidableEq β]
    {key : α → β} :
    ∀ {l : List α} {seen : List β} {a : α},
      a ∈ dropDuplicatesBy key l seen → a ∈ l := by
  intro l
  induction l with
  | nil => intro seen a ha; cases ha
  | cons x xs ih =>
    intro seen a ha
    simp only [dropDuplicatesBy] at ha
    by_cases hx : key x ∈ seen
    · rw [if_pos hx] at ha
      exact List.mem_cons_of_mem _ (ih ha)
    · rw [if_neg hx] at ha
      rcases List.mem_cons.mp ha with ha | ha
      · exact ha ▸ List.mem_cons_self _ _
      · exact List.mem_cons_of_mem _ (ih ha)

theorem dropDuplicatesBy_keys_nodup {α β : Type} [DecidableEq β]
    (key : α → β) :
    ∀ (l : List α) (seen : List β),
      ((dropDuplicatesBy key l seen).map key).Nodup
      ∧ ∀ b ∈ (dropDuplicatesBy key l seen).map key, b ∉ seen := by
  intro l
  induction l with
  | nil => intro seen; exact ⟨List.nodup_nil, by intro b hb; cases hb⟩
  | cons x xs ih =>
    intro seen
    simp only [dropDuplicatesBy]
    by_cases hx : key x ∈ seen
    · rw [if_pos hx]; exact ih seen
    · rw [if_neg hx]
      refine ⟨?_, ?_⟩
      · rw [List.map_cons]
        refine List.nodup_cons.mpr ⟨?_, (ih (key x :: seen)).1⟩
        intro hmem
        exact ((ih (key x :: seen)).2 _ hmem) (List.mem_cons_self _ _)
      · intro b hb
        rcases List.mem_cons.mp (List.map_cons key x _ ▸ hb) with hb | hb
        · exact hb ▸ hx
        · intro hbseen
          exact (ih (key x :: seen)).2 b hb (List.mem_cons_of_mem _ hbseen)

theorem mem_dropDuplicatesBy_id {α : Type} [DecidableEq α] :
    ∀ {l : List α} {seen : List α} {a : α},
      a ∈ l → a ∉ seen → a ∈ dropDuplicatesBy (fun r => r) l seen := by
  intro l
  induction l with
  | nil => intro seen a ha; cases ha
  | cons x xs ih =>
    intro seen a ha hseen
    simp only [dropDuplicatesBy]
    by_cases hax : a = x
    · subst hax
      rw [if_neg hseen]
      exact List.mem_cons_self _ _
    · rcases List.mem_cons.mp ha with ha | ha
      · exact absurd ha hax
      · by_cases hx : x ∈ seen
        · rw [if_pos hx]
          exact ih ha hseen
        · rw [if_neg hx]
          refine List.mem_cons_of_mem _ (ih ha ?_)
          intro hmem
          rcases List.mem_cons.mp hmem with h | h
          · exact hax h
          · exact hseen h

theorem mem_insertLE {α : Type} {le : α → α → Bool} {x z : α} :
    ∀ {l : List α}, z ∈ insertLE le x l ↔ z = x ∨ z ∈ l := by
  intro l
  induction l with
  | nil => simp [insertLE]
  | cons y ys ih =>
    simp only [insertLE]
    by_cases h : le x y = true
    · rw [if_pos h]; simp [List.mem_cons]
    · rw [if_neg h]
      simp only [List.mem_cons, ih]
      tauto

theorem length_insertLE {α : Type} {le : α → α → Bool} {x : α} :
    ∀ {l : List α}, (insertLE le x l).length = l.length + 1 := by
  intro l
  induction l with
  | nil => rfl
  | cons y ys ih =>
    simp only [insertLE]
    by_cases h : le x y = true
    · rw [if_pos h]; rfl
    · rw [if_neg h]; simp [ih]

theorem length_sortLE {α : Type} {le : α → α → Bool} :
    ∀ {l : List α}, (sortLE le l).length = l.length := by
  intro l
  induction l with
  | nil => rfl
  | cons x xs ih => simp [sortLE, length_insertLE, ih]

theorem sorted_insertLE {α : Type} {le : α → α → Bool}
    (trans : ∀ a b c, le a b = true → le b c = true → le a c = true)
    (total : ∀ a b, le a b = true ∨ le b a = true) (x : α) :
    ∀ {l : List α}, List.Pairwise (fun a b => le a b = true) l →
      List.Pairwise (fun a b => le a b = true) (insertLE le x l) := by
  intro l
  induction l with
  | nil => intro _; exact List.pairwise_singleton _ _
  | cons y ys ih =>
    intro hp
    rcases List.pairwise_cons.mp hp with ⟨hy, hys⟩
    simp only [insertLE]
    by_cases h : le x y = true
    · rw [if_pos h]
      refine List.pairwise_cons.mpr ⟨?_, hp⟩
      intro z hz
      rcases List.mem_cons.mp hz with hz | hz
      · exact hz ▸ h
      · exact trans x y z h (hy z hz)
    · rw [if_neg h]
      refine List.pairwise_cons.mpr ⟨?_, ih hys⟩
      intro z hz
      rcases mem_insertLE.mp hz with hz | hz
      · rcases total x y with hxy | hyx
        · exact absurd hxy h
        · exact hz ▸ hyx
      · exact hy z hz

theorem sorted_sortLE {α : Type} {le : α → α → Bool}
    (trans : ∀ a b c, le a b = true → le b c = true → le a c = true)
    (total : ∀ a b, le a b = true ∨ le b a = true) :
    ∀ {l : List α}, List.Pairwise (fun a b => le a b = true) (sortLE le l) := by
  intro l
  induction l with
  | nil => exact List.Pairwise.nil
  | cons x xs ih => exact sorted_insertLE trans total x ih

theorem optIntDescLE_total (a b : Option Int) :
    optIntDescLE a b = true ∨ optIntDescLE b a = true := by
  cases a <;> cases b <;> simp [optIntDescLE] <;> omega

theorem optIntDescLE_trans (a b c : Option Int)
    (hab : optIntDescLE a b = true) (hbc : optIntDescLE b c = true) :
    optIntDescLE a c = true := by
  cases a <;> cases b <;> cases c <;> simp_all [optIntDescLE] <;> omega

theorem natListLt_irrefl : ∀ l : List Nat, natListLt l l = false := by
  intro l
  induction l with
  | nil => rfl
  | cons a as ih => simp [natListLt, Nat.lt_irrefl, ih]

theorem natListLt_trans : ∀ l1 l2 l3 : List Nat, natListLt l1 l2 = true →
    natListLt l2 l3 = true → natListLt l1 l3 = true := by
  intro l1
  induction l1 with
  | nil =>
    intro l2 l3 h12 h23
    cases l2 with
    | nil => simp [natListLt] at h12
    | cons b bs =>
      cases l3 with
      | nil => simp [natListLt] at h23
      | cons c cs => simp [natListLt]
  | cons a as ih =>
    intro l2 l3 h12 h23
    cases l2 with
    | nil => simp [natListLt] at h12
    | cons b bs =>
      cases l3 with
      | nil => simp [natListLt] at h23
      | cons c cs =>
        simp only [natListLt] at h12 h23 ⊢
        by_cases hab : a < b
        · by_cases hbc : b < c
          · simp [Nat.lt_trans hab hbc]
          · by_cases hcb : c < b
            · simp [hbc, hcb] at h23
            · have hb : b = c := by omega
              subst hb
              simp [hab]
        · by_cases hba : b < a
          · simp [hab, hba] at h12
          · have hb : a = b := by omega
            subst hb
            simp only [Nat.lt_irrefl, if_false] at h12
            by_cases hac : a < c
            · simp [hac]
            · by_cases hca : c < a
              · simp [hac, hca] at h23
              · have hc : a = c := by omega
                subst hc
                simp only [Nat.lt_irrefl, if_false] at h23 ⊢
                exact ih bs cs h12 h23

theorem natListLt_eq_of_tie : ∀ l1 l2 : List Nat,
    natListLt l1 l2 = false → natListLt l2 l1 = false → l1 = l2 := by
  intro l1
  induction l1 with
  | nil =>
    intro l2 h12 _
    cases l2 with
    | nil => rfl
    | cons b bs => simp [natListLt] at h12
  | cons a as ih =>
    intro l2 h12 h21
    cases l2 with
    | nil => simp [natListLt] at h21
    | cons b bs =>
      simp only [natListLt] at h12 h21
      by_cases hab : a < b
      · simp [hab] at h12
      · by_cases hba : b < a
        · simp [hba] at h21
        · have hb : a = b := by omega
          subst hb
          simp only [Nat.lt_irrefl, if_false] at h12 h21
          rw [ih bs h12 h21]

theorem strLtB_irrefl (x : String) : strLtB x x = false :=
  natListLt_irrefl (strKey x)

theorem strLtB_key_eq_of_tie {x y : String} (hxy : strLtB x y = false)
    (hyx : strLtB y x = false) : strKey x = strKey y :=
  natListLt_eq_of_tie (strKey x) (strKey y) hxy hyx

theorem userKeyLE_some_some (a b : UserRow) (x y : String)
    (ha : a.user_id = some x) (hb : b.user_id = some y) :
    userKeyLE a b =
      (if strLtB x y then true else if strLtB y x then false
       else optIntDescLE a.ts b.ts) := by
  simp [userKeyLE, ha, hb]

theorem userKeyLE_total (a b : UserRow) :
    userKeyLE a b = true ∨ userKeyLE b a = true := by
  cases ha : a.user_id with
  | none =>
    cases hb : b.user_id with
    | none =>
      simp only [userKeyLE, ha, hb]
      exact optIntDescLE_total a.ts b.ts
    | some y => left; simp [userKeyLE, ha, hb]
  | some x =>
    cases hb : b.user_id with
    | none => right; simp [userKeyLE, ha, hb]
    | some y =>
      rw [userKeyLE_some_some a b x y ha hb,
        userKeyLE_some_some b a y x hb ha]
      by_cases hxy : strLtB x y = true
      · left; simp [hxy]
      · by_cases hyx : strLtB y x = true
        · right; simp [hyx]
        · simp only [Bool.not_eq_true] at hxy hyx
          rcases optIntDescLE_total a.ts b.ts with h | h
          · left; simp [hxy, hyx, h]
          · right; simp [hxy, hyx, h]

theorem userKeyLE_trans (a b c : UserRow)
    (hab : userKeyLE a b = true) (hbc : userKeyLE b c = true) :
    userKeyLE a c = true := by
  cases ha : a.user_id with
  | none =>
    cases hc : c.user_id with
    | none =>
      simp only [userKeyLE, ha, hc]
      cases hb : b.user_id with
      | none =>
        simp only [userKeyLE, ha, hb] at hab
        simp only [userKeyLE, hb, hc] at hbc
        exact optIntDescLE_trans _ _ _ hab hbc
      | some y => simp [userKeyLE, hb, hc] at hbc
    | some z => simp [userKeyLE, ha, hc]
  | some x =>
    cases hb : b.user_id with
    | none => simp [userKeyLE, ha, hb] at hab
    | some y =>
      cases hc : c.user_id with
      | none => simp [userKeyLE, hb, hc] at hbc
      | some z =>
        rw [userKeyLE_some_some a b x y ha hb] at hab
        rw [userKeyLE_some_some b c y z hb hc] at hbc
        rw [userKeyLE_some_some a c x z ha hc]
        by_cases hxy : strLtB x y = true
        · by_cases hyz : strLtB y z = true
          · have hxz : strLtB x z = true := natListLt_trans _ _ _ hxy hyz
            simp [hxz]
          · by_cases hzy : strLtB z y = true
            · simp [hyz, hzy] at hbc
            · simp only [Bool.not_eq_true] at hyz hzy
              have hk : strKey y = strKey z := strLtB_key_eq_of_tie hyz hzy
              have hxz : strLtB x z = true := by
                show natListLt (strKey x) (strKey z) = true
                rw [← hk]
                exact hxy
              simp [hxz]
        · by_cases hyx : strLtB y x = true
          · simp [hxy, hyx] at hab
          · simp only [Bool.not_eq_true] at hxy hyx
            have hkxy : strKey x = strKey y := strLtB_key_eq_of_tie hxy hyx
            have habt : optIntDescLE a.ts b.ts = true := by
              simpa [hxy, hyx] using hab
            by_cases hyz : strLtB y z = true
            · have hxz : strLtB x z = true := by
                show natListLt (strKey x) (strKey z) = true
                rw [hkxy]
                exact hyz
              simp [hxz]
            · by_cases hzy : strLtB z y = true
              · simp [hyz, hzy] at hbc
              · simp only [Bool.not_eq_true] at hyz hzy
                have hkyz : strKey y = strKey z := strLtB_key_eq_of_tie hyz hzy
                have hbct : optIntDescLE b.ts c.ts = true := by
                  simpa [hyz, hzy] using hbc
                have hxz : strLtB x z = false := by
                  show natListLt (strKey x) (strKey z) = false
                  rw [hkxy, hkyz]
                  exact natListLt_irrefl _
                have hzx : strLtB z x = false := by
                  show natListLt (strKey z) (strKey x) = false
                  rw [hkxy, hkyz]
                  exact natListLt_irrefl _
                simp [hxz, hzx, optIntDescLE_trans _ _ _ habt hbct]

theorem userKeyLE_tie (a b : UserRow) (h : userKeyLE a b = true)
    (huid : a.user_id = b.user_id) : optIntDescLE a.ts b.ts = true := by
  cases ha : a.user_id with
  | none =>
    rw [ha] at huid
    simpa only [userKeyLE, ha, ← huid] using h
  | some x =>
    rw [ha] at huid
    rw [userKeyLE_some_some a b x x ha huid.symm] at h
    simpa [strLtB_irrefl x] using h

theorem optIntDescLE_some_some {ta tb : Int}
    (h : optIntDescLE (some ta) (some tb) = true) : tb ≤ ta := by
  simpa [optIntDescLE] using h

/-! Characterization of the songplays computation. -/

theorem joinRows_mem {songs : List SongRecord} {logs : List LogRecord}
    {p : SongRecord × LogRecord} :
    p ∈ joinRows songs logs ↔
      p.1 ∈ songs ∧ p.2 ∈ logs ∧ joinPredB p.1 p.2 = true := by
  simp only [joinRows, List.mem_flatMap, List.mem_map, List.mem_filter]
  constructor
  · rintro ⟨s, hs, l, ⟨hl, hpred⟩, hp⟩
    cases hp
    exact ⟨hs, hl, hpred⟩
  · rintro ⟨hs, hl, hpred⟩
    exact ⟨p.1, hs, p.2, ⟨hl, hpred⟩, rfl⟩

theorem joinPredB_iff {s : SongRecord} {l : LogRecord} :
    joinPredB s l = true ↔
      ∃ name, s.artist_name = some name ∧ l.artist = some name := by
  cases hs : s.artist_name with
  | none => simp [joinPredB, hs]
  | some a =>
    cases hl : l.artist with
    | none => simp [joinPredB, hs, hl]
    | some b =>
      simp only [joinPredB, hs, hl, beq_iff_eq]
      constructor
      · intro h; exact ⟨a, rfl, by rw [h]⟩
      · rintro ⟨name, hna, hnb⟩
        cases hna
        exact (Option.some.injEq _ _).mp hnb.symm

theorem create_songplays_eq {songs : List SongRecord} {logs : List LogRecord}
    (h : ∀ p ∈ joinRows songs logs, p.2.ts ≠ none) :
    create_songplays_table songs logs =
      Except.ok (((joinRows songs logs).filter
          (fun p => pageIsNextSong p.2)).map
        (fun p => songplayProj p.1 p.2)) := by
  have hok : ∀ p ∈ joinRows songs logs,
      (parse_timestamp p.2.ts).map (fun t => (p, t)) =
        Except.ok (p, Int.fdiv (p.2.ts.getD 0) 1000) := by
    intro p hp
    cases hts : p.2.ts with
    | none => exact absurd hts (h p hp)
    | some t => simp [parse_timestamp, hts, Except.map]
  simp only [create_songplays_table, mapME_ok_of_forall hok]
  rw [List.filter_map, List.map_map]
  rfl

theorem create_songplays_error_of_null {songs : List SongRecord}
    {logs : List LogRecord} {p : SongRecord × LogRecord}
    (hp : p ∈ joinRows songs logs) (hts : p.2.ts = none) :
    create_songplays_table songs logs = Except.error () := by
  have hstep : Except.map (fun t => ((p : SongRecord × LogRecord), t))
      (parse_timestamp p.2.ts) = Except.error () := by
    rw [hts]; rfl
  have herr : mapME (fun q : SongRecord × LogRecord =>
      Except.map (fun t => (q, t)) (parse_timestamp q.2.ts))
      (joinRows songs logs) = Except.error () :=
    mapME_error_of_mem hp hstep
  simp only [create_songplays_table]
  rw [herr]

theorem create_songplays_ok_elim {songs : List SongRecord}
    {logs : List LogRecord} {out : List SongplayRow}
    (h : create_songplays_table songs logs = Except.ok out) :
    out = ((joinRows songs logs).filter
        (fun p => pageIsNextSong p.2)).map
      (fun p => songplayProj p.1 p.2) := by
  have hnn : ∀ p ∈ joinRows songs logs, p.2.ts ≠ none := by
    intro p hp hts
    rw [create_songplays_table] at h
    rw [mapME_error_of_mem hp (by simp [parse_timestamp, hts, Except.map])]
      at h
    cases h
  rw [create_songplays_eq hnn] at h
  cases h
  rfl

/-! Claim theorems. -/

/-- C3: for every catalog input, the songs table contains no two rows with
the same song_id, and every output row is the (song_id, title, artist_id,
year, duration) projection of some input record. -/
theorem songs_table_unique_ids (df : List SongRecord) :
    ((songs_table df).map (fun r => r.song_id)).Nodup
    ∧ ∀ r ∈ songs_table df, ∃ rec ∈ df, r = songProj rec := by
  constructor
  · exact (dropDuplicatesBy_keys_nodup (fun r : SongRow => r.song_id)
      (df.map songProj) []).1
  · intro r hr
    have hmem : r ∈ df.map songProj := mem_of_mem_dropDuplicatesBy hr
    rcases List.mem_map.mp hmem with ⟨rec, hrec, hproj⟩
    exact ⟨rec, hrec, hproj.symm⟩

/-- Witness for C3 at a concrete two-record catalog. -/
theorem songs_table_unique_ids_witness :
    songProj cs1 ∈ songs_table [cs1, cs2]
    ∧ ∃ rec ∈ [cs1, cs2], songProj cs1 = songProj rec :=
  ⟨by decide, (songs_table_unique_ids [cs1, cs2]).2 (songProj cs1) (by decide)⟩

/-- C4: for every catalog input, the artists table contains no two rows equal
on all five fields, every row is the projection of some input record, and two
input records with the same artist_id whose projections differ in any
attribute both survive as distinct output rows. -/
theorem artists_table_rowwise_distinct (df : List SongRecord) :
    (artists_table df).Nodup
    ∧ (∀ r ∈ artists_table df, ∃ rec ∈ df, r = artistProj rec)
    ∧ (∀ r1 ∈ df, ∀ r2 ∈ df, r1.artist_id = r2.artist_id →
        artistProj r1 ≠ artistProj r2 →
        artistProj r1 ∈ artists_table df
          ∧ artistProj r2 ∈ artists_table df) := by
  refine ⟨?_, ?_, ?_⟩
  · have h := (dropDuplicatesBy_keys_nodup (fun r : ArtistRow => r)
      (df.map artistProj) []).1
    simpa using h
  · intro r hr
    have hmem : r ∈ df.map artistProj := mem_of_mem_dropDuplicatesBy hr
    rcases List.mem_map.mp hmem with ⟨rec, hrec, hproj⟩
    exact ⟨rec, hrec, hproj.symm⟩
  · intro r1 h1 r2 h2 _ _
    constructor
    · exact mem_dropDuplicatesBy_id (List.mem_map_of_mem artistProj h1)
        (by intro h; cases h)
    · exact mem_dropDuplicatesBy_id (List.mem_map_of_mem artistProj h2)
        (by intro h; cases h)

/-- Witness for C4: `cs1` and `cs3` share artist_id "A1" but have different
artist names; both their artist rows survive. -/
theorem artists_table_rowwise_distinct_witness :
    cs1.artist_id = cs3.artist_id ∧ artistProj cs1 ≠ artistProj cs3
    ∧ (artistProj cs1 ∈ artists_table [cs1, cs3]
        ∧ artistProj cs3 ∈ artists_table [cs1, cs3]) :=
  ⟨by decide, by decide,
    (artists_table_rowwise_distinct [cs1, cs3]).2.2 cs1 (by decide) cs3
      (by decide) (by decide) (by decide)⟩

/-- C6: `parse_timestamp` truncates epoch milliseconds to whole seconds:
0 maps to the epoch instant, 1000 to exactly one second later, 1500 to the
same second as 1000, and in general any remainder below 1000 is discarded
(truncation, never rounding up). -/
theorem parse_timestamp_truncates :
    parse_timestamp (some 0) = Except.ok 0
    ∧ parse_timestamp (some 1000) = Except.ok 1
    ∧ parse_timestamp (some 1500) = parse_timestamp (some 1000)
    ∧ ∀ s r : Int, 0 ≤ r → r < 1000 →
        parse_timestamp (some (1000 * s + r)) = Except.ok s := by
  refine ⟨by decide, by decide, by decide, ?_⟩
  intro s r h0 h1
  simp only [parse_timestamp, Except.ok.injEq]
  rw [Int.fdiv_eq_ediv _ (by decide)]
  omega

/-- Witness for C6 at a concrete fractional-second input. -/
theorem parse_timestamp_truncates_witness :
    (0 : Int) ≤ 345 ∧ (345 : Int) < 1000
    ∧ parse_timestamp (some (1000 * 2 + 345)) = Except.ok 2 :=
  ⟨by decide, by decide,
    parse_timestamp_truncates.2.2.2 2 345 (by decide) (by decide)⟩

/-- C8: the composed transforms are deterministic — two runs on equal input
datasets produce equal songs, artists, time and songplays tables (row lists,
hence row sets), and the users table equal as a list (same rows in the same
order). -/
theorem pipeline_deterministic (songs songs2 : List SongRecord)
    (logs logs2 : List LogRecord)
    (hs : songs = songs2) (hl : logs = logs2) :
    songs_table songs = songs_table songs2
    ∧ artists_table songs = artists_table songs2
    ∧ users_table logs = users_table logs2
    ∧ time_table logs = time_table logs2
    ∧ create_songplays_table songs logs
        = create_songplays_table songs2 logs2 := by
  subst hs
  subst hl
  exact ⟨rfl, rfl, rfl, rfl, rfl⟩

/-- Witness for C8 at concrete inputs. -/
theorem pipeline_deterministic_witness :
    users_table [cl1, cl2] = users_table [cl1, cl2]
    ∧ create_songplays_table [cs1] [cl1, cl2]
        = create_songplays_table [cs1] [cl1, cl2] :=
  ⟨(pipeline_deterministic [cs1] [cs1] [cl1, cl2] [cl1, cl2] rfl rfl).2.2.1,
    (pipeline_deterministic [cs1] [cs1] [cl1, cl2] [cl1, cl2] rfl rfl).2.2.2.2⟩

/-- Helper for C10: rows with a null artist never satisfy the join predicate,
so pre-filtering them away does not change the per-song match list. -/
theorem filter_joinPred_null (s : SongRecord) :
    ∀ logs : List LogRecord,
      (logs.filter (fun l => l.artist.isSome)).filter (joinPredB s)
        = logs.filter (joinPredB s) := by
  intro logs
  induction logs with
  | nil => rfl
  | cons l ls ih =>
    cases hl : l.artist with
    | none =>
      have hp : joinPredB s l = false := by
        cases hs : s.artist_name <;> simp [joinPredB, hs, hl]
      simp [List.filter_cons, hl, hp, ih]
    | some a =>
      simp only [List.filter_cons, hl, Option.isSome_some, if_true]
      by_cases hp : joinPredB s l = true
      · simp [List.filter_cons, hp, ih]
      · simp only [Bool.not_eq_true] at hp
        simp [List.filter_cons, hp, ih]

/-- Helper for C10: the join is unchanged by dropping null-artist activity
rows. -/
theorem joinRows_drop_null_artist (songs : List SongRecord)
    (logs : List LogRecord) :
    joinRows songs (logs.filter (fun l => l.artist.isSome))
      = joinRows songs logs := by
  unfold joinRows
  congr 1
  funext s
  rw [filter_joinPred_null]

/-- C10: an activity record with a null artist contributes no songplays row,
even when its page is NextSong — deleting all null-artist records leaves the
songplays output unchanged, and no null-artist record ever appears in the
join. -/
theorem songplays_null_artist_dropped (songs : List SongRecord)
    (logs : List LogRecord) :
    create_songplays_table songs logs
        = create_songplays_table songs
            (logs.filter (fun l => l.artist.isSome))
    ∧ ∀ l ∈ logs, l.artist = none →
        ∀ s, (s, l) ∉ joinRows songs logs := by
  constructor
  · simp only [create_songplays_table, joinRows_drop_null_artist]
  · intro l _ hnull s hmem
    rcases joinRows_mem.mp hmem with ⟨_, _, hpred⟩
    rcases joinPredB_iff.mp hpred with ⟨name, _, hb⟩
    rw [hnull] at hb
    cases hb

/-- Witness for C10: the concrete null-artist NextSong record joins with
nothing. -/
theorem songplays_null_artist_dropped_witness :
    clNullArtist ∈ [clNullArtist] ∧ clNullArtist.artist = none
    ∧ ¬(cs1, clNullArtist) ∈ joinRows [cs1] [clNullArtist] :=
  ⟨by decide, by decide,
    (songplays_null_artist_dropped [cs1] [clNullArtist]).2 clNullArtist
      (by decide) (by decide) cs1⟩

/-- C1 counterexample: one NextSong activity record whose artist "X" matches
a catalog artist name yields TWO songplays rows when the catalog holds two
records with that artist name — inner-join multiplicity contradicts "exactly
one output row per activity record". -/
theorem songplays_two_rows_one_activity :
    create_songplays_table [cs1, cs2] [cl1]
        = Except.ok [songplayProj cs1 cl1, songplayProj cs2 cl1]
    ∧ songplayProj cs1 cl1 ≠ songplayProj cs2 cl1
    ∧ pageIsNextSong cl1 = true
    ∧ joinPredB cs1 cl1 = true := by
  refine ⟨by decide, by decide, by decide, by decide⟩

/-- C1 (amended): the songplays output has exactly one row per (catalog
record, activity record) pair with string-equal non-null artist names and
activity page NextSong; unmatched activity records and non-NextSong records
contribute no rows. -/
theorem songplays_row_per_matching_pair (songs : List SongRecord)
    (logs : List LogRecord) (out : List SongplayRow)
    (h : create_songplays_table songs logs = Except.ok out) :
    out = ((joinRows songs logs).filter
        (fun p => pageIsNextSong p.2)).map (fun p => songplayProj p.1 p.2)
    ∧ out.length
        = ((joinRows songs logs).filter (fun p => pageIsNextSong p.2)).length
    ∧ ∀ p : SongRecord × LogRecord,
        p ∈ joinRows songs logs ↔
          p.1 ∈ songs ∧ p.2 ∈ logs
          ∧ ∃ name, p.1.artist_name = some name ∧ p.2.artist = some name := by
  have hout := create_songplays_ok_elim h
  refine ⟨hout, ?_, ?_⟩
  · rw [hout, List.length_map]
  · intro p
    rw [joinRows_mem, joinPredB_iff]

/-- Witness for C1 (amended) at a concrete run: one matching pair, so one
output row. -/
theorem songplays_row_per_matching_pair_witness :
    create_songplays_table [cs1] [cl1, cl2]
        = Except.ok [songplayProj cs1 cl1]
    ∧ [songplayProj cs1 cl1]
        = ((joinRows [cs1] [cl1, cl2]).filter
            (fun p => pageIsNextSong p.2)).map
          (fun p => songplayProj p.1 p.2) :=
  ⟨by decide,
    (songplays_row_per_matching_pair [cs1] [cl1, cl2]
      [songplayProj cs1 cl1] (by decide)).1⟩

/-- C2: the songplays result computes start_time from every joined record's
ts (a null ts of a joined record aborts the build) but the projected columns
are exactly (user_id, level, song_id, artist_id, sessionId, location,
userAgent) — `SongplayRow` has no start_time field — and the songplays write
carries no partition columns. -/
theorem songplays_drop_start_time_unpartitioned :
    songplaysWrite.partitionBy = []
    ∧ (∀ (songs : List SongRecord) (logs : List LogRecord)
        (out : List SongplayRow),
        create_songplays_table songs logs = Except.ok out →
        out = ((joinRows songs logs).filter
            (fun p => pageIsNextSong p.2)).map
          (fun p => songplayProj p.1 p.2))
    ∧ (∀ (songs : List SongRecord) (logs : List LogRecord)
        (p : SongRecord × LogRecord), p ∈ joinRows songs logs →
        p.2.ts = none →
        create_songplays_table songs logs = Except.error ()) := by
  refine ⟨rfl, ?_, ?_⟩
  · intro songs logs out h
    exact create_songplays_ok_elim h
  · intro songs logs p hp hts
    exact create_songplays_error_of_null hp hts

/-- Witness for C2: a null-ts joined record aborts the songplays build even
though start_time is dropped from the projection. -/
theorem songplays_drop_start_time_unpartitioned_witness :
    (cs1, clNullTsJoin) ∈ joinRows [cs1] [clNullTsJoin]
    ∧ clNullTsJoin.ts = none
    ∧ create_songplays_table [cs1] [clNullTsJoin] = Except.error () :=
  ⟨by decide, by decide,
    songplays_drop_start_time_unpartitioned.2.2 [cs1] [clNullTsJoin]
      (cs1, clNullTsJoin) (by decide) (by decide)⟩

/-- C7: the time table has exactly one row per activity input row, and every
row's calendar columns (year in particular) agree with the calendar
decomposition of its own start_time. -/
theorem time_table_count_and_year (logs : List LogRecord)
    (out : List TimeRow) (h : time_table logs = Except.ok out) :
    out.length = logs.length
    ∧ ∀ row ∈ out, row.year = yearOf row.start_time
        ∧ row.month = monthOf row.start_time
        ∧ row.day = dayOf row.start_time
        ∧ row.hour = hourOf row.start_time
        ∧ row.week = weekOfYearOf row.start_time := by
  constructor
  · exact mapME_ok_length h
  · intro row hrow
    rcases mapME_ok_mem h row hrow with ⟨l, _, hl⟩
    cases hts : l.ts with
    | none => rw [hts] at hl; cases hl
    | some t =>
      rw [hts] at hl
      simp only [parse_timestamp, Except.map] at hl
      cases hl
      exact ⟨rfl, rfl, rfl, rfl, rfl⟩

/-- Witness for C7 at a concrete one-record activity input. -/
theorem time_table_count_and_year_witness :
    time_table [cl1] = Except.ok [mkTimeRow 0]
    ∧ [mkTimeRow 0].length = [cl1].length
    ∧ (mkTimeRow 0).year = yearOf (mkTimeRow 0).start_time :=
  ⟨by decide,
    (time_table_count_and_year [cl1] [mkTimeRow 0] (by decide)).1,
    ((time_table_count_and_year [cl1] [mkTimeRow 0] (by decide)).2
      (mkTimeRow 0) (by decide)).1⟩

/-- C9 counterexample: an input containing a null-ts activity record does NOT
always make the songplays build fail — when the null-ts record joins with no
catalog record (here its artist is null), the build succeeds and simply emits
nothing, contradicting the claim that a null ts makes build_songplays fail. -/
theorem songplays_null_ts_no_failure :
    clNullTs.ts = none
    ∧ create_songplays_table [cs1] [clNullTs] = Except.ok [] := by
  refine ⟨by decide, by decide⟩

/-- C9 (amended): `parse_timestamp` is partial on null input (null raises,
non-null succeeds); with every activity ts non-null both the time table and
the songplays build succeed; a null ts always aborts the time table, and
aborts the songplays build exactly when the null-ts record participates in
the join. -/
theorem parse_timestamp_null_partiality :
    parse_timestamp none = Except.error ()
    ∧ (∀ t : Int, ∃ v, parse_timestamp (some t) = Except.ok v)
    ∧ (∀ logs : List LogRecord, (∀ r ∈ logs, r.ts ≠ none) →
        ∃ out, time_table logs = Except.ok out)
    ∧ (∀ (songs : List SongRecord) (logs : List LogRecord),
        (∀ r ∈ logs, r.ts ≠ none) →
        ∃ out, create_songplays_table songs logs = Except.ok out)
    ∧ (∀ (logs : List LogRecord) (r : LogRecord), r ∈ logs → r.ts = none →
        time_table logs = Except.error ())
    ∧ (∀ (songs : List SongRecord) (logs : List LogRecord)
        (p : SongRecord × LogRecord), p ∈ joinRows songs logs →
        p.2.ts = none →
        create_songplays_table songs logs = Except.error ()) := by
  refine ⟨rfl, ?_, ?_, ?_, ?_, ?_⟩
  · intro t
    exact ⟨Int.fdiv t 1000, rfl⟩
  · intro logs hnn
    refine ⟨logs.map (fun l => mkTimeRow (Int.fdiv (l.ts.getD 0) 1000)), ?_⟩
    apply mapME_ok_of_forall
    intro l hl
    cases hts : l.ts with
    | none => exact absurd hts (hnn l hl)
    | some t => simp [parse_timestamp, hts, Except.map]
  · intro songs logs hnn
    refine ⟨_, create_songplays_eq ?_⟩
    intro p hp
    exact hnn p.2 (joinRows_mem.mp hp).2.1
  · intro logs r hr hts
    exact mapME_error_of_mem hr (by simp [parse_timestamp, hts, Except.map])
  · intro songs logs p hp hts
    exact create_songplays_error_of_null hp hts

/-- Witness for C9 (amended): concrete null-ts inputs abort the time table,
and the songplays build aborts when the null-ts record joins. -/
theorem parse_timestamp_null_partiality_witness :
    clNullTs ∈ [clNullTs] ∧ clNullTs.ts = none
    ∧ time_table [clNullTs] = Except.error ()
    ∧ create_songplays_table [cs1, cs2] [clNullTsJoin] = Except.error () :=
  ⟨by decide, by decide,
    parse_timestamp_null_partiality.2.2.2.2.1 [clNullTs] clNullTs
      (by decide) (by decide),
    parse_timestamp_null_partiality.2.2.2.2.2 [cs1, cs2] [clNullTsJoin]
      (cs1, clNullTsJoin) (by decide) (by decide)⟩

/-- C5: the users table has exactly as many rows as the activity input (no
filtering or deduplication), is sorted by user_id ascending then ts
descending, and so any two adjacent rows with equal user_id have the earlier
row's ts greater than or equal to the later row's ts. -/
theorem users_table_sorted (logs : List LogRecord) :
    (users_table logs).length = logs.length
    ∧ List.Pairwise (fun a b => userKeyLE a b = true) (users_table logs)
    ∧ ∀ i : Nat, i + 1 < (users_table logs).length →
        ((users_table logs).getD i noUserRow).user_id
            = ((users_table logs).getD (i + 1) noUserRow).user_id →
        ∀ ta tb : Int,
          ((users_table logs).getD i noUserRow).ts = some ta →
          ((users_table logs).getD (i + 1) noUserRow).ts = some tb →
          tb ≤ ta := by
  have hsorted : List.Pairwise (fun a b => userKeyLE a b = true)
      (users_table logs) := sorted_sortLE userKeyLE_trans userKeyLE_total
  refine ⟨?_, hsorted, ?_⟩
  · simp only [users_table, length_sortLE, List.length_map]
  · intro i h2 huid ta tb hta htb
    have h1 : i < (users_table logs).length := Nat.lt_of_succ_lt h2
    have hget : userKeyLE ((users_table logs)[i])
        ((users_table logs)[i + 1]) = true :=
      List.pairwise_iff_getElem.mp hsorted i (i + 1) h1 h2 (Nat.lt_succ_self i)
    have e1 : (users_table logs).getD i noUserRow
        = (users_table logs)[i] := by
      rw [List.getD_eq_getElem?_getD, List.getElem?_eq_getElem h1]
      rfl
    have e2 : (users_table logs).getD (i + 1) noUserRow
        = (users_table logs)[i + 1] := by
      rw [List.getD_eq_getElem?_getD, List.getElem?_eq_getElem h2]
      rfl
    rw [e1] at huid hta
    rw [e2] at huid htb
    have htie := userKeyLE_tie _ _ hget huid
    rw [hta, htb] at htie
    exact optIntDescLE_some_some htie

/-- Witness for C5: on two records of user U1 with ts 0 and 5000, the table
is sorted with ts 5000 first, and the adjacent-rows property instantiates to
0 ≤ 5000. -/
theorem users_table_sorted_witness :
    (users_table [cl1, cl2]).length = 2
    ∧ ((users_table [cl1, cl2]).getD 0 noUserRow).user_id
        = ((users_table [cl1, cl2]).getD 1 noUserRow).user_id
    ∧ ((users_table [cl1, cl2]).getD 0 noUserRow).ts = some 5000
    ∧ ((users_table [cl1, cl2]).getD 1 noUserRow).ts = some 0
    ∧ (0 : Int) ≤ 5000 :=
  ⟨(users_table_sorted [cl1, cl2]).1, by decide, by decide, by decide,
    (users_table_sorted [cl1, cl2]).2.2 0 (by decide) (by decide) 5000 0
      (by decide) (by decide)⟩

end SparkETL
